import Mathlib

/-!
Shallow embedding of the Chatapp backend (src/Backend/app.js): the message
store, the socket handlers (sendMessage, markAsRead, setUsername,
disconnect), the in-memory online-users registry, and the HTTP message
query and creation routes.  JavaScript truthiness on optional string
fields is modelled explicitly: an absent field is `none` and the empty
string is falsy.  Dates are modelled as natural numbers, MongoDB document
identifiers as natural numbers.
-/

namespace Chat

/-- A persisted chat message document, following messageSchema in app.js:
sender is a required string, receiver is optional (absent means
broadcast), content is an optional field with no required validator,
timestamp is a Date, and isDelivered / isRead are booleans defaulting to
false. -/
structure StoredMessage where
  id : Nat
  sender : String
  receiver : Option String
  content : Option String
  timestamp : Nat
  isDelivered : Bool
  isRead : Bool
deriving DecidableEq, Repr

/-- JavaScript truthiness of an optional string value: an absent field
(undefined) and the empty string are falsy, every other string is
truthy. -/
def truthy : Option String → Bool
  | none => false
  | some s => !(s == "")

/-- A live socket.io connection: its socket id, and the value of
socket.username, which is undefined until the client emits setUsername. -/
structure Session where
  sid : Nat
  username : Option String
deriving DecidableEq, Repr

/-- The payload of a sendMessage socket event: sender and content are
strings (the empty string standing for an empty or missing field, which
is falsy), and receiver is an optional string. -/
structure MessagePayload where
  sender : String
  receiver : Option String
  content : String
deriving DecidableEq, Repr

/-- The observable outcome of one sendMessage event: the message store
afterwards, the document that was persisted (none when the handler threw
on an invalid payload), and the list of socket ids to which the formatted
message was emitted. -/
structure SendOutcome where
  db : List StoredMessage
  stored : Option StoredMessage
  delivered : List Nat
deriving DecidableEq, Repr

/-- The document built by Message.create in the sendMessage handler: the
receiver field is `message.receiver || null` (a falsy receiver is stored
as null), the timestamp is the server clock, isDelivered is set true, and
isRead takes the schema default false. -/
def mkStored (now nid : Nat) (m : MessagePayload) : StoredMessage :=
  { id := nid
    sender := m.sender
    receiver := if truthy m.receiver then m.receiver else none
    content := some m.content
    timestamp := now
    isDelivered := true
    isRead := false }

/-- The sendMessage socket handler (app.js lines 68-105).  An empty
sender or content throws, the catch block logs, and nothing is persisted
or emitted.  Otherwise the message is persisted; then, if the receiver
field is truthy, the first live socket whose username equals the receiver
(if any) receives the formatted message, and if the receiver field is
falsy the message is emitted to every live socket. -/
def sendMessage (now nid : Nat) (sessions : List Session)
    (db : List StoredMessage) (m : MessagePayload) : SendOutcome :=
  if m.sender = "" ∨ m.content = "" then
    { db := db, stored := none, delivered := [] }
  else
    let st := mkStored now nid m
    let delivered :=
      if truthy m.receiver then
        match sessions.find? (fun s => s.username == m.receiver) with
        | some s => [s.sid]
        | none => []
      else
        sessions.map Session.sid
    { db := db ++ [st], stored := some st, delivered := delivered }

/-- C1: a sendMessage event with an empty sender or empty content fails
with no persistence and no emission; a valid one persists exactly one new
document with isDelivered = true, isRead = false and the server-assigned
timestamp. -/
theorem sendMessage_validation (now nid : Nat) (sessions : List Session)
    (db : List StoredMessage) (m : MessagePayload) :
    (m.sender = "" ∨ m.content = "" →
      sendMessage now nid sessions db m = ⟨db, none, []⟩)
    ∧ (m.sender ≠ "" → m.content ≠ "" →
      (sendMessage now nid sessions db m).db = db ++ [mkStored now nid m]
      ∧ (sendMessage now nid sessions db m).stored = some (mkStored now nid m)
      ∧ (mkStored now nid m).isDelivered = true
      ∧ (mkStored now nid m).isRead = false
      ∧ (mkStored now nid m).timestamp = now) := by
  refine ⟨fun h => ?_, fun h1 h2 => ?_⟩
  · simp [sendMessage, h]
  · simp [sendMessage, h1, h2, mkStored]

/-- Witness for C1 at concrete inputs: an empty sender is rejected, and a
valid payload is persisted with the stated flags. -/
theorem sendMessage_validation_witness :
    sendMessage 5 1 [] [] ⟨"", none, "hi"⟩ = ⟨[], none, []⟩
    ∧ (sendMessage 5 1 [] [] ⟨"alice", none, "hi"⟩).stored
        = some (mkStored 5 1 ⟨"alice", none, "hi"⟩) :=
  ⟨(sendMessage_validation 5 1 [] [] ⟨"", none, "hi"⟩).1 (Or.inl rfl),
   ((sendMessage_validation 5 1 [] [] ⟨"alice", none, "hi"⟩).2
      (by decide) (by decide)).2.1⟩

/-- A list whose filter by p is the singleton [a] has a as its first
element satisfying p. -/
theorem find?_of_filter_singleton {α : Type} (p : α → Bool) (l : List α)
    (a : α) (h : l.filter p = [a]) : l.find? p = some a := by
  induction l with
  | nil => simp at h
  | cons x xs ih =>
    cases hp : p x with
    | true =>
      rw [List.filter_cons_of_pos hp] at h
      obtain ⟨rfl, -⟩ := List.cons_eq_cons.mp h
      exact List.find?_cons_of_pos _ hp
    | false =>
      rw [List.filter_cons_of_neg (by simp [hp])] at h
      rw [List.find?_cons_of_neg _ (by simp [hp])]
      exact ih h

/-- A list whose filter by p is empty has no element satisfying p. -/
theorem find?_of_filter_nil {α : Type} (p : α → Bool) (l : List α)
    (h : l.filter p = []) : l.find? p = none := by
  induction l with
  | nil => rfl
  | cons x xs ih =>
    cases hp : p x with
    | true => rw [List.filter_cons_of_pos hp] at h; exact absurd h (by simp)
    | false =>
      rw [List.filter_cons_of_neg (by simp [hp])] at h
      rw [List.find?_cons_of_neg _ (by simp [hp])]
      exact ih h

/-- C2: a valid sendMessage whose (non-empty) receiver label is claimed
by exactly one live session delivers the formatted message to that
session's socket and to no other; when no live session claims the label
the message is still persisted and nothing is delivered in real time. -/
theorem sendMessage_addressed (now nid : Nat) (sessions : List Session)
    (db : List StoredMessage) (m : MessagePayload) (r : String)
    (h1 : m.sender ≠ "") (h2 : m.content ≠ "") (hr : m.receiver = some r)
    (hne : r ≠ "") :
    (∀ s0, sessions.filter (fun s => s.username == some r) = [s0] →
      (sendMessage now nid sessions db m).delivered = [s0.sid])
    ∧ (sessions.filter (fun s => s.username == some r) = [] →
      (sendMessage now nid sessions db m).delivered = []
      ∧ (sendMessage now nid sessions db m).db = db ++ [mkStored now nid m]) := by
  constructor
  · intro s0 hf
    have := find?_of_filter_singleton (fun s => s.username == some r) sessions s0 hf
    simp [sendMessage, h1, h2, hr, truthy, hne, this]
  · intro hf
    have := find?_of_filter_nil (fun s => s.username == some r) sessions hf
    refine ⟨?_, ?_⟩ <;> simp [sendMessage, h1, h2, hr, truthy, hne, this]

/-- Witness for C2 at concrete inputs: with live sessions bob and alice,
a message addressed to bob is delivered to bob's socket only, and a
message addressed to carol (claimed by nobody) is persisted with no
delivery. -/
theorem sendMessage_addressed_witness :
    (sendMessage 5 1 [⟨1, some ("bob")⟩, ⟨2, some ("alice")⟩] []
      ⟨"alice", some ("bob"), "hi"⟩).delivered = [1]
    ∧ (sendMessage 5 1 [⟨1, some ("bob")⟩, ⟨2, some ("alice")⟩] []
        ⟨"alice", some ("carol"), "hi"⟩).delivered = []
    ∧ (sendMessage 5 1 [⟨1, some ("bob")⟩, ⟨2, some ("alice")⟩] []
        ⟨"alice", some ("carol"), "hi"⟩).db
      = [mkStored 5 1 ⟨"alice", some ("carol"), "hi"⟩] :=
  ⟨(sendMessage_addressed 5 1 [⟨1, some ("bob")⟩, ⟨2, some ("alice")⟩] []
      ⟨"alice", some ("bob"), "hi"⟩ "bob" (by decide) (by decide) rfl
      (by decide)).1 ⟨1, some ("bob")⟩ (by decide),
   ((sendMessage_addressed 5 1 [⟨1, some ("bob")⟩, ⟨2, some ("alice")⟩] []
      ⟨"alice", some ("carol"), "hi"⟩ "carol" (by decide) (by decide) rfl
      (by decide)).2 (by decide)).1,
   ((sendMessage_addressed 5 1 [⟨1, some ("bob")⟩, ⟨2, some ("alice")⟩] []
      ⟨"alice", some ("carol"), "hi"⟩ "carol" (by decide) (by decide) rfl
      (by decide)).2 (by decide)).2⟩

/-- C3: a valid sendMessage with the receiver field absent is emitted to
every currently live session, including the sender's own session when it
is live. -/
theorem sendMessage_broadcast_all (now nid : Nat) (sessions : List Session)
    (db : List StoredMessage) (m : MessagePayload)
    (h1 : m.sender ≠ "") (h2 : m.content ≠ "") (hr : m.receiver = none) :
    (sendMessage now nid sessions db m).delivered = sessions.map Session.sid
    ∧ ∀ s ∈ sessions, s.sid ∈ (sendMessage now nid sessions db m).delivered := by
  have ht : truthy m.receiver = false := by simp [hr, truthy]
  constructor
  · simp [sendMessage, h1, h2, ht]
  · intro s hs
    simp only [sendMessage, h1, h2, ht]
    simp [h1, h2]
    exact ⟨s, hs, rfl⟩

/-- Witness for C3 at concrete inputs: a broadcast message from alice
reaches both live sockets, alice's own included. -/
theorem sendMessage_broadcast_all_witness :
    (sendMessage 5 1 [⟨1, some ("bob")⟩, ⟨2, some ("alice")⟩] []
      ⟨"alice", none, "hi"⟩).delivered = [1, 2]
    ∧ 2 ∈ (sendMessage 5 1 [⟨1, some ("bob")⟩, ⟨2, some ("alice")⟩] []
        ⟨"alice", none, "hi"⟩).delivered :=
  ⟨(sendMessage_broadcast_all 5 1 [⟨1, some ("bob")⟩, ⟨2, some ("alice")⟩]
      [] ⟨"alice", none, "hi"⟩ (by decide) (by decide) rfl).1,
   (sendMessage_broadcast_all 5 1 [⟨1, some ("bob")⟩, ⟨2, some ("alice")⟩]
      [] ⟨"alice", none, "hi"⟩ (by decide) (by decide) rfl).2
     ⟨2, some ("alice")⟩ (by decide)⟩

/-- The effect of message.save() after `message.isRead = true` in the
markAsRead handler: the document found by findById (the first one with
the given id) is rewritten with isRead set; every other document is left
untouched. -/
def setReadFirst : List StoredMessage → Nat → List StoredMessage
  | [], _ => []
  | x :: xs, mid =>
    if x.id = mid then { x with isRead := true } :: xs
    else x :: setReadFirst xs mid

/-- The markAsRead socket handler (app.js lines 107-121).  Message.findById
looks the document up; when it is absent the handler silently does
nothing; when it is present isRead is set to true, saved, and
updateMessageStatus with the id and isRead = true is emitted to every
live socket (the second component, none when no emission happened). -/
def markAsRead (db : List StoredMessage) (mid : Nat)
    : List StoredMessage × Option (Nat × Bool) :=
  match db.find? (fun x => x.id == mid) with
  | none => (db, none)
  | some _ => (setReadFirst db mid, some (mid, true))

/-- Setting the read flag on the first document with a given id leaves
any document with a different id in the store. -/
theorem mem_setReadFirst_of_ne (db : List StoredMessage) (mid : Nat)
    (x : StoredMessage) (hx : x ∈ db) (hne : x.id ≠ mid) :
    x ∈ setReadFirst db mid := by
  induction db with
  | nil => simp at hx
  | cons y ys ih =>
    rcases List.mem_cons.mp hx with rfl | hmem
    · simp [setReadFirst, hne]
    · by_cases hy : y.id = mid
      · simp [setReadFirst, hy, hmem]
      · simp only [setReadFirst, if_neg hy]
        exact List.mem_cons_of_mem _ (ih hmem)

/-- After setReadFirst, the first document with the marked id is the old
one with isRead set to true. -/
theorem find?_setReadFirst (db : List StoredMessage) (mid : Nat)
    (m : StoredMessage) (h : db.find? (fun x => x.id == mid) = some m) :
    (setReadFirst db mid).find? (fun x => x.id == mid)
      = some { m with isRead := true } := by
  induction db with
  | nil => simp at h
  | cons y ys ih =>
    by_cases hy : y.id = mid
    · rw [List.find?_cons_of_pos _ (by simp [hy])] at h
      obtain rfl := Option.some_injective _ h
      simp only [setReadFirst, if_pos hy]
      rw [List.find?_cons_of_pos _ (by simp [hy])]
    · rw [List.find?_cons_of_neg _ (by simp [hy])] at h
      simp only [setReadFirst, if_neg hy]
      rw [List.find?_cons_of_neg _ (by simp [hy])]
      exact ih h

/-- Marking the first document with a given id read twice is the same as
marking it once. -/
theorem setReadFirst_idem (db : List StoredMessage) (mid : Nat) :
    setReadFirst (setReadFirst db mid) mid = setReadFirst db mid := by
  induction db with
  | nil => rfl
  | cons y ys ih =>
    by_cases hy : y.id = mid
    · simp [setReadFirst, hy]
    · simp [setReadFirst, hy, ih]

/-- C4: markAsRead on an absent message id is a silent no-op with no
state change and no emission; on a present id the stored document gets
isRead = true with its other fields unchanged, every other document is
untouched, the pair of id and isRead = true is emitted, and the call is
idempotent: re-marking leaves the store unchanged and still emits. -/
theorem markAsRead_spec (db : List StoredMessage) (mid : Nat) :
    ((∀ x ∈ db, x.id ≠ mid) → markAsRead db mid = (db, none))
    ∧ (∀ m, db.find? (fun x => x.id == mid) = some m →
      (markAsRead db mid).2 = some (mid, true)
      ∧ (markAsRead db mid).1.find? (fun x => x.id == mid)
          = some { m with isRead := true }
      ∧ (∀ x ∈ db, x.id ≠ mid → x ∈ (markAsRead db mid).1)
      ∧ (markAsRead (markAsRead db mid).1 mid).1 = (markAsRead db mid).1
      ∧ (markAsRead (markAsRead db mid).1 mid).2 = some (mid, true)) := by
  constructor
  · intro h
    have : db.find? (fun x => x.id == mid) = none := by
      rw [List.find?_eq_none]
      intro x hx
      simp [h x hx]
    simp [markAsRead, this]
  · intro m hm
    have h2 := find?_setReadFirst db mid m hm
    refine ⟨by simp [markAsRead, hm], ?_, ?_, ?_, ?_⟩
    · simpa [markAsRead, hm] using h2
    · intro x hx hne
      simp only [markAsRead, hm]
      exact mem_setReadFirst_of_ne db mid x hx hne
    · simp [markAsRead, hm, h2, setReadFirst_idem]
    · simp [markAsRead, hm, h2]

/-- Witness for C4 at concrete inputs: on a one-message store, marking an
absent id is a no-op and marking the present id emits and is
idempotent. -/
theorem markAsRead_spec_witness :
    markAsRead [⟨1, "alice", some ("bob"), some ("hi"), 5, true, false⟩] 2
      = ([⟨1, "alice", some ("bob"), some ("hi"), 5, true, false⟩], none)
    ∧ (markAsRead [⟨1, "alice", some ("bob"), some ("hi"), 5, true, false⟩] 1).2
        = some (1, true)
    ∧ (markAsRead
        (markAsRead [⟨1, "alice", some ("bob"), some ("hi"), 5, true, false⟩] 1).1
        1).1
      = (markAsRead [⟨1, "alice", some ("bob"), some ("hi"), 5, true, false⟩] 1).1 :=
  ⟨(markAsRead_spec [⟨1, "alice", some ("bob"), some ("hi"), 5, true, false⟩] 2).1
      (by decide),
   ((markAsRead_spec [⟨1, "alice", some ("bob"), some ("hi"), 5, true, false⟩] 1).2
      ⟨1, "alice", some ("bob"), some ("hi"), 5, true, false⟩ (by decide)).1,
   ((markAsRead_spec [⟨1, "alice", some ("bob"), some ("hi"), 5, true, false⟩] 1).2
      ⟨1, "alice", some ("bob"), some ("hi"), 5, true, false⟩ (by decide)).2.2.2.1⟩

/-- JavaScript Map.set on the onlineUsers registry (socket id to claimed
label): an existing key keeps its position and gets the new value, a new
key is appended at the end, preserving insertion order. -/
def mapSet : List (Nat × String) → Nat → String → List (Nat × String)
  | [], k, v => [(k, v)]
  | p :: ps, k, v => if p.1 = k then (k, v) :: ps else p :: mapSet ps k v

/-- JavaScript Map.get: the value stored under a key, none when the key
is absent (undefined). -/
def mapGet (l : List (Nat × String)) (k : Nat) : Option String :=
  (l.find? (fun p => p.1 == k)).map Prod.snd

/-- JavaScript Map.delete: removes the entry with the given key and
preserves the order of all other entries. -/
def mapDelete (l : List (Nat × String)) (k : Nat) : List (Nat × String) :=
  l.filter (fun p => !(p.1 == k))

/-- Array.from(onlineUsers.values()): the labels in insertion order,
duplicates included. -/
def mapValues (l : List (Nat × String)) : List String := l.map Prod.snd

/-- User.findOneAndUpdate on the users collection: the first document
whose username matches gets the new status; when no document matches
nothing changes. -/
def setStatus : List (String × String) → String → String → List (String × String)
  | [], _, _ => []
  | (n, s) :: rest, u, st =>
    if n = u then (n, st) :: rest else (n, s) :: setStatus rest u st

/-- The persisted status of an identity: the status field of the first
user document with that username. -/
def statusOf (users : List (String × String)) (u : String) : Option String :=
  (users.find? (fun p => p.1 == u)).map Prod.snd

/-- The shared state of the second backend variant: the in-memory
onlineUsers Map and the persistent user documents restricted to their
username and status fields. -/
structure V2State where
  onlineUsers : List (Nat × String)
  userStatus : List (String × String)
deriving DecidableEq, Repr

/-- The setUsername socket handler (app.js lines 312-317): the registry
maps the socket id to the given label, the first user document with that
username gets status online, and the full value sequence of the registry
is emitted to every live socket.  No validation of the label occurs. -/
def setUsername (st : V2State) (sid : Nat) (username : String)
    : V2State × Option (List String) :=
  let online := mapSet st.onlineUsers sid username
  (⟨online, setStatus st.userStatus username ("online")⟩,
    some (mapValues online))

/-- The disconnect socket handler (app.js lines 319-327): when the
registry holds a truthy label for the socket, the matching user document
gets status offline unconditionally, the registry entry is deleted, and
the updated value sequence is emitted; a falsy label (absent entry or
empty string) makes the whole handler a no-op. -/
def disconnect (st : V2State) (sid : Nat) : V2State × Option (List String) :=
  match mapGet st.onlineUsers sid with
  | none => (st, none)
  | some u =>
    if u = "" then (st, none)
    else
      let online := mapDelete st.onlineUsers sid
      (⟨online, setStatus st.userStatus u ("offline")⟩,
        some (mapValues online))

/-- Updating the status of a username that has a user document makes the
looked-up status equal to the new one. -/
theorem statusOf_setStatus (users : List (String × String)) (u st : String)
    (h : u ∈ users.map Prod.fst) :
    statusOf (setStatus users u st) u = some st := by
  induction users with
  | nil => simp at h
  | cons q qs ih =>
    obtain ⟨n, s⟩ := q
    by_cases hn : n = u
    · subst hn
      have hset : setStatus ((n, s) :: qs) n st = (n, st) :: qs := by
        simp [setStatus]
      rw [hset, statusOf, List.find?_cons_of_pos _ (by simp)]
      rfl
    · simp only [List.map_cons, List.mem_cons] at h
      rcases h with h | h
      · exact absurd h.symm hn
      · simp only [setStatus, if_neg hn, statusOf]
        rw [List.find?_cons_of_neg _ (by simp [hn])]
        exact ih h

/-- C5 counterexample: with two live sessions both claiming alice and
the stored status online, disconnecting one session sets alice's
persistent status to offline even though the other live session still
claims alice, refuting the claim that the status update happens only
when no other live session claims the label. -/
theorem disconnect_claim_false :
    (disconnect ⟨[(1, "alice"), (2, "alice")], [("alice", "online")]⟩ 1).1.userStatus
      = [("alice", "offline")]
    ∧ (2, "alice") ∈
      (disconnect ⟨[(1, "alice"), (2, "alice")], [("alice", "online")]⟩ 1).1.onlineUsers := by
  decide

/-- C5 amended: when a session with a claimed non-empty label closes,
its registry entry is removed, every other entry is kept, the updated
online-label sequence is emitted, and the identity's persistent status
becomes offline unconditionally, even when another live session still
claims the same label. -/
theorem disconnect_removes_and_sets_offline (st : V2State) (sid : Nat)
    (u : String) (hu : mapGet st.onlineUsers sid = some u) (hne : u ≠ "")
    (hdoc : u ∈ st.userStatus.map Prod.fst) :
    (∀ p ∈ (disconnect st sid).1.onlineUsers, p.1 ≠ sid)
    ∧ (∀ p ∈ st.onlineUsers, p.1 ≠ sid → p ∈ (disconnect st sid).1.onlineUsers)
    ∧ (disconnect st sid).2
        = some (mapValues (disconnect st sid).1.onlineUsers)
    ∧ statusOf (disconnect st sid).1.userStatus u = some ("offline") := by
  refine ⟨?_, ?_, ?_, ?_⟩
  · intro p hp
    simp only [disconnect, hu, if_neg hne, mapDelete] at hp
    have := List.of_mem_filter hp
    simpa using this
  · intro p hp hpk
    simp only [disconnect, hu, if_neg hne, mapDelete]
    exact List.mem_filter.mpr ⟨hp, by simpa using hpk⟩
  · simp only [disconnect, hu, if_neg hne]
  · simp only [disconnect, hu, if_neg hne]
    exact statusOf_setStatus st.userStatus u ("offline") hdoc

/-- Witness for C5 amended at concrete inputs: disconnecting socket 1,
which claims alice, removes its entry, keeps socket 2's entry, emits the
updated label sequence, and sets alice's status to offline. -/
theorem disconnect_removes_and_sets_offline_witness :
    (∀ p ∈ (disconnect ⟨[(1, "alice"), (2, "alice")], [("alice", "online")]⟩ 1).1.onlineUsers,
      p.1 ≠ 1)
    ∧ (∀ p ∈ [(1, "alice"), (2, "alice")], p.1 ≠ 1 →
      p ∈ (disconnect ⟨[(1, "alice"), (2, "alice")], [("alice", "online")]⟩ 1).1.onlineUsers)
    ∧ (disconnect ⟨[(1, "alice"), (2, "alice")], [("alice", "online")]⟩ 1).2
        = some (mapValues
          (disconnect ⟨[(1, "alice"), (2, "alice")], [("alice", "online")]⟩ 1).1.onlineUsers)
    ∧ statusOf
        (disconnect ⟨[(1, "alice"), (2, "alice")], [("alice", "online")]⟩ 1).1.userStatus
        "alice"
      = some ("offline") :=
  disconnect_removes_and_sets_offline
    ⟨[(1, "alice"), (2, "alice")], [("alice", "online")]⟩ 1 "alice"
    (by decide) (by decide) (by decide)

/-- Map.set stores the given value under the given key. -/
theorem mapGet_mapSet_self (l : List (Nat × String)) (k : Nat) (v : String) :
    mapGet (mapSet l k v) k = some v := by
  induction l with
  | nil => simp [mapSet, mapGet]
  | cons p ps ih =>
    by_cases hp : p.1 = k
    · simp [mapSet, hp, mapGet]
    · simp only [mapSet, if_neg hp, mapGet]
      rw [List.find?_cons_of_neg _ (by simp [hp])]
      exact ih

/-- Map.set leaves every other key's value unchanged. -/
theorem mapGet_mapSet_ne (l : List (Nat × String)) (k j : Nat) (v : String)
    (h : j ≠ k) : mapGet (mapSet l k v) j = mapGet l j := by
  induction l with
  | nil =>
    simp only [mapSet, mapGet, List.find?_nil]
    rw [List.find?_cons_of_neg _ (by simp [Ne.symm h])]
    rfl
  | cons p ps ih =>
    by_cases hp : p.1 = k
    · simp only [mapSet, if_pos hp, mapGet]
      rw [List.find?_cons_of_neg _ (by simp [Ne.symm h]),
        List.find?_cons_of_neg _ (by simp [hp, Ne.symm h])]
    · simp only [mapSet, if_neg hp, mapGet]
      by_cases hj : p.1 = j
      · rw [List.find?_cons_of_pos _ (by simp [hj]),
          List.find?_cons_of_pos _ (by simp [hj])]
      · rw [List.find?_cons_of_neg _ (by simp [hj]),
          List.find?_cons_of_neg _ (by simp [hj])]
        exact ih

/-- Every key of the registry after Map.set is the set key or one of the
old keys. -/
theorem mem_keys_mapSet (l : List (Nat × String)) (k : Nat) (v : String)
    (j : Nat) (h : j ∈ (mapSet l k v).map Prod.fst) :
    j = k ∨ j ∈ l.map Prod.fst := by
  induction l with
  | nil => simp [mapSet] at h; exact Or.inl h
  | cons p ps ih =>
    by_cases hp : p.1 = k
    · simp only [mapSet, if_pos hp, List.map_cons, List.mem_cons] at h
      rcases h with h | h
      · exact Or.inl h
      · exact Or.inr (by simp [h])
    · simp only [mapSet, if_neg hp, List.map_cons, List.mem_cons] at h
      rcases h with h | h
      · exact Or.inr (by simp [h])
      · rcases ih h with h' | h'
        · exact Or.inl h'
        · exact Or.inr (by simp [h'])

/-- Map.set keeps the registry keys pairwise distinct: at most one label
per connection identifier. -/
theorem keysNodup_mapSet (l : List (Nat × String)) (k : Nat) (v : String)
    (h : (l.map Prod.fst).Nodup) : ((mapSet l k v).map Prod.fst).Nodup := by
  induction l with
  | nil => simp [mapSet]
  | cons p ps ih =>
    simp only [List.map_cons, List.nodup_cons] at h
    by_cases hp : p.1 = k
    · simp only [mapSet, if_pos hp, List.map_cons, List.nodup_cons]
      exact ⟨hp ▸ h.1, h.2⟩
    · simp only [mapSet, if_neg hp, List.map_cons, List.nodup_cons]
      refine ⟨fun hmem => ?_, ih h.2⟩
      rcases mem_keys_mapSet ps k v p.1 hmem with h' | h'
      · exact hp h'
      · exact h.1 h'

/-- A key-value pair that Map.get reports is an entry of the registry. -/
theorem mapGet_mem (l : List (Nat × String)) (k : Nat) (u : String)
    (h : mapGet l k = some u) : (k, u) ∈ l := by
  simp only [mapGet, Option.map_eq_some'] at h
  obtain ⟨q, hq, hqu⟩ := h
  have hmem := List.mem_of_find?_eq_some hq
  have hk := List.find?_some hq
  simp only [beq_iff_eq] at hk
  have : q = (k, u) := by
    obtain ⟨a, b⟩ := q
    simp only at hk hqu
    simp [hk, hqu]
  exact this ▸ hmem

/-- A label held by two entries with distinct keys occurs at least twice
in the value sequence of the registry. -/
theorem count_values_two (l : List (Nat × String)) (k1 k2 : Nat)
    (u : String) (h1 : (k1, u) ∈ l) (h2 : (k2, u) ∈ l) (hne : k1 ≠ k2) :
    2 ≤ (mapValues l).count u := by
  induction l with
  | nil => simp at h1
  | cons p ps ih =>
    rcases List.mem_cons.mp h1 with rfl | hm1
    · rcases List.mem_cons.mp h2 with h2' | hm2
      · exact absurd (congrArg Prod.fst h2'.symm) hne
      · have hu : u ∈ mapValues ps := List.mem_map_of_mem Prod.snd hm2
        have : 1 ≤ (mapValues ps).count u := List.count_pos_iff.mpr hu
        simpa [mapValues, List.count_cons] using this
    · rcases List.mem_cons.mp h2 with rfl | hm2
      · have hu : u ∈ mapValues ps := List.mem_map_of_mem Prod.snd hm1
        have : 1 ≤ (mapValues ps).count u := List.count_pos_iff.mpr hu
        simpa [mapValues, List.count_cons] using this
      · have := ih hm1 hm2
        simp only [mapValues, List.map_cons, List.count_cons] at this ⊢
        omega

/-- C6 counterexample: a setUsername event carrying the empty label is
not rejected: starting from an empty registry it adds the entry and
emits the online-label sequence, refuting the claim that an empty label
causes no registry mutation and no broadcast. -/
theorem setUsername_claim_false :
    (setUsername ⟨[], []⟩ 7 ("")).1.onlineUsers = [(7, "")]
    ∧ (setUsername ⟨[], []⟩ 7 ("")).2 = some [""] :=
  ⟨rfl, rfl⟩

/-- C6 amended: setUsername performs no validation of the label: an
empty label is bound to the connection in the Presence Registry, the
persistence-layer status update to online is still issued for it, and
the online-label set is broadcast. -/
theorem setUsername_no_validation (st : V2State) (sid : Nat) :
    mapGet (setUsername st sid ("")).1.onlineUsers sid = some ("")
    ∧ (setUsername st sid ("")).2
        = some (mapValues (setUsername st sid ("")).1.onlineUsers)
    ∧ (setUsername st sid ("")).1.userStatus
        = setStatus st.userStatus ("") ("online") :=
  ⟨mapGet_mapSet_self st.onlineUsers sid (""), rfl, rfl⟩

/-- C7: declaring the same label from two distinct connection
identifiers leaves both occurrences in the broadcast online-label
sequence (the label is counted at least twice, duplicates are not
collapsed), while the registry still holds at most one label per
connection identifier and maps each of the two connections to the
label. -/
theorem duplicate_labels_kept (st : V2State) (sid1 sid2 : Nat) (u : String)
    (hne : sid1 ≠ sid2) (hnodup : (st.onlineUsers.map Prod.fst).Nodup) :
    ((setUsername (setUsername st sid1 u).1 sid2 u).1.onlineUsers.map Prod.fst).Nodup
    ∧ mapGet (setUsername (setUsername st sid1 u).1 sid2 u).1.onlineUsers sid1 = some u
    ∧ mapGet (setUsername (setUsername st sid1 u).1 sid2 u).1.onlineUsers sid2 = some u
    ∧ (setUsername (setUsername st sid1 u).1 sid2 u).2
        = some (mapValues (setUsername (setUsername st sid1 u).1 sid2 u).1.onlineUsers)
    ∧ 2 ≤ (mapValues
        (setUsername (setUsername st sid1 u).1 sid2 u).1.onlineUsers).count u := by
  have hou : (setUsername (setUsername st sid1 u).1 sid2 u).1.onlineUsers
      = mapSet (mapSet st.onlineUsers sid1 u) sid2 u := rfl
  have hg1 : mapGet (mapSet (mapSet st.onlineUsers sid1 u) sid2 u) sid1 = some u := by
    rw [mapGet_mapSet_ne _ sid2 sid1 u hne]
    exact mapGet_mapSet_self _ _ _
  have hg2 : mapGet (mapSet (mapSet st.onlineUsers sid1 u) sid2 u) sid2 = some u :=
    mapGet_mapSet_self _ _ _
  refine ⟨?_, ?_, ?_, rfl, ?_⟩
  · rw [hou]
    exact keysNodup_mapSet _ _ _ (keysNodup_mapSet _ _ _ hnodup)
  · rw [hou]
    exact hg1
  · rw [hou]
    exact hg2
  · rw [hou]
    exact count_values_two _ sid1 sid2 u (mapGet_mem _ _ _ hg1)
      (mapGet_mem _ _ _ hg2) hne

/-- Witness for C7 at concrete inputs: sockets 1 and 2 both declare
alice; the broadcast label sequence counts alice twice and the registry
keys stay distinct. -/
theorem duplicate_labels_kept_witness :
    ((setUsername (setUsername ⟨[], []⟩ 1 ("alice")).1 2
        ("alice")).1.onlineUsers.map Prod.fst).Nodup
    ∧ 2 ≤ (mapValues (setUsername (setUsername ⟨[], []⟩ 1 ("alice")).1 2
        ("alice")).1.onlineUsers).count ("alice") :=
  ⟨(duplicate_labels_kept ⟨[], []⟩ 1 2 ("alice") (by decide) (by decide)).1,
   (duplicate_labels_kept ⟨[], []⟩ 1 2 ("alice")
      (by decide) (by decide)).2.2.2.2⟩

/-- One observable step of an event handler: a registry mutation, a
persistence call that succeeded, a persistence call that failed (the
awaited promise rejected), a console error log, or a socket emission. -/
inductive Act where
  | registryWrite
  | persistSuccess
  | persistFailure
  | logError
  | broadcast
deriving DecidableEq, Repr

/-- The action sequence of one sendMessage event (app.js lines 68-105),
as a function of whether the payload passes validation and whether
Message.create succeeds: an invalid payload throws and the catch block
logs; a failed create rejects into the catch block which logs; a
successful create is followed by the emission. -/
def sendMessageTrace (valid persistOk : Bool) : List Act :=
  if valid then
    if persistOk then [Act.persistSuccess, Act.broadcast]
    else [Act.persistFailure, Act.logError]
  else [Act.logError]

/-- The action sequence of one markAsRead event (app.js lines 107-121),
as a function of whether the message id is found and whether the save
succeeds: an absent id does nothing; a failed save rejects into the
catch block which logs; a successful save is followed by the emission. -/
def markAsReadTrace (found persistOk : Bool) : List Act :=
  if found then
    if persistOk then [Act.persistSuccess, Act.broadcast]
    else [Act.persistFailure, Act.logError]
  else []

/-- The action sequence of one setUsername event (app.js lines 312-317),
as a function of whether User.findOneAndUpdate succeeds: the registry is
written first, then the update is awaited; on success the emission
follows; on failure the async handler has no catch block, so the
rejection escapes without any log and without the emission. -/
def setUsernameTrace (persistOk : Bool) : List Act :=
  if persistOk then [Act.registryWrite, Act.persistSuccess, Act.broadcast]
  else [Act.registryWrite, Act.persistFailure]

/-- Scans an action sequence and checks that every broadcast is preceded
by a successful persistence call; the accumulator records whether a
persistSuccess has been seen. -/
def bapAux : Bool → List Act → Bool
  | _, [] => true
  | seen, a :: rest =>
    match a with
    | Act.broadcast => seen && bapAux seen rest
    | Act.persistSuccess => bapAux true rest
    | _ => bapAux seen rest

/-- Whether every broadcast in the sequence happens after a successful
persistence call. -/
def broadcastAfterPersist (t : List Act) : Bool := bapAux false t

/-- C8 counterexample: when persistence fails inside setUsername, the
handler emits nothing but also logs nothing (it has no catch block), so
the claim that every persisting-and-broadcasting event logs its
persistence failure is false for declare-identity. -/
theorem persistence_failure_not_logged :
    setUsernameTrace false = [Act.registryWrite, Act.persistFailure]
    ∧ Act.logError ∉ setUsernameTrace false := by
  decide

/-- C8 amended: in all three persisting-and-broadcasting handlers a
broadcast never precedes successful persistence, and a persistence
failure always suppresses the broadcast; sendMessage and markAsRead log
the failure through their catch blocks, while setUsername does not log
it (the rejection escapes the handler). -/
theorem persistence_ordering (valid found persistOk : Bool) :
    broadcastAfterPersist (sendMessageTrace valid persistOk) = true
    ∧ broadcastAfterPersist (markAsReadTrace found persistOk) = true
    ∧ broadcastAfterPersist (setUsernameTrace persistOk) = true
    ∧ (Act.persistFailure ∈ sendMessageTrace valid persistOk →
        Act.broadcast ∉ sendMessageTrace valid persistOk
        ∧ Act.logError ∈ sendMessageTrace valid persistOk)
    ∧ (Act.persistFailure ∈ markAsReadTrace found persistOk →
        Act.broadcast ∉ markAsReadTrace found persistOk
        ∧ Act.logError ∈ markAsReadTrace found persistOk)
    ∧ (Act.persistFailure ∈ setUsernameTrace persistOk →
        Act.broadcast ∉ setUsernameTrace persistOk) := by
  cases valid <;> cases found <;> cases persistOk <;> decide

/-- Witness for C8 amended at concrete flags: with a valid payload and a
failing persistence call, sendMessage suppresses the broadcast and logs,
and setUsername suppresses the broadcast. -/
theorem persistence_ordering_witness :
    (Act.broadcast ∉ sendMessageTrace true false
      ∧ Act.logError ∈ sendMessageTrace true false)
    ∧ Act.broadcast ∉ setUsernameTrace false :=
  ⟨(persistence_ordering true true false).2.2.2.1 (by decide),
   (persistence_ordering true true false).2.2.2.2.2 (by decide)⟩

/-- The descending-timestamp ordering used by the sort spec
timestamp: -1 in the GET /messages route: a precedes b when b's
timestamp is at most a's. -/
def tsGE (a b : StoredMessage) : Prop := b.timestamp ≤ a.timestamp

instance : DecidableRel tsGE :=
  fun a b => inferInstanceAs (Decidable (b.timestamp ≤ a.timestamp))

instance : IsTotal StoredMessage tsGE :=
  ⟨fun a b => Nat.le_total b.timestamp a.timestamp⟩

instance : IsTrans StoredMessage tsGE :=
  ⟨fun _ _ _ hab hbc => Nat.le_trans hbc hab⟩

/-- The filter object built by GET /messages: a query parameter is added
to the filter only when it is truthy, so an empty-string parameter is
ignored exactly like an absent one; a present filter field matches by
equality on the document field. -/
def queryMatches (sender receiver : Option String) (m : StoredMessage) : Bool :=
  (match sender with
    | some s => if s = "" then true else m.sender == s
    | none => true)
  && (match receiver with
    | some rv => if rv = "" then true else m.receiver == some rv
    | none => true)

/-- The filtering predicate in the words of the specification: the
document's fields equal every supplied parameter. -/
def specMatches (sender receiver : Option String) (m : StoredMessage) : Bool :=
  (match sender with
    | some s => m.sender == s
    | none => true)
  && (match receiver with
    | some rv => m.receiver == some rv
    | none => true)

/-- The GET /messages route (app.js lines 129-142): Message.find with the
truthiness-built filter, sorted by timestamp descending. -/
def getMessages (db : List StoredMessage) (sender receiver : Option String)
    : List StoredMessage :=
  List.insertionSort tsGE (db.filter (queryMatches sender receiver))

/-- Filtering by pointwise equal predicates gives equal lists. -/
theorem filter_ext {α : Type} (p q : α → Bool) (l : List α)
    (h : ∀ x ∈ l, p x = q x) : l.filter p = l.filter q := by
  induction l with
  | nil => rfl
  | cons x xs ih =>
    have hx := h x (List.mem_cons_self x xs)
    have ht := ih fun y hy => h y (List.mem_cons_of_mem x hy)
    cases hp : p x with
    | true =>
      rw [List.filter_cons_of_pos hp, List.filter_cons_of_pos (hx ▸ hp), ht]
    | false =>
      rw [List.filter_cons_of_neg (by simp [hp]),
        List.filter_cons_of_neg (by simp [hx ▸ hp]), ht]

/-- C9: with optional non-empty sender and/or receiver parameters, the
message query returns exactly the persisted messages whose fields equal
every supplied parameter (all messages when none is supplied), sorted by
timestamp descending. -/
theorem getMessages_spec (db : List StoredMessage)
    (sender receiver : Option String)
    (hs : ∀ s, sender = some s → s ≠ "")
    (hr : ∀ rv, receiver = some rv → rv ≠ "") :
    List.Perm (getMessages db sender receiver)
      (db.filter (specMatches sender receiver))
    ∧ List.Sorted tsGE (getMessages db sender receiver) := by
  constructor
  · have hfeq : db.filter (queryMatches sender receiver)
        = db.filter (specMatches sender receiver) := by
      apply filter_ext
      intro m _
      rcases sender with _ | s <;> rcases receiver with _ | rv
      · rfl
      · have hrr := hr rv rfl
        simp [queryMatches, specMatches, hrr]
      · have hss := hs s rfl
        simp [queryMatches, specMatches, hss]
      · have hss := hs s rfl
        have hrr := hr rv rfl
        simp [queryMatches, specMatches, hss, hrr]
    exact hfeq ▸ List.perm_insertionSort tsGE _
  · exact List.sorted_insertionSort tsGE _

/-- The store used by the C9 witness: three persisted messages, two of
them addressed to bob, with distinct timestamps. -/
def dbW : List StoredMessage :=
  [⟨1, "alice", some ("bob"), some ("hi"), 5, true, false⟩,
   ⟨2, "carol", some ("bob"), some ("yo"), 9, true, false⟩,
   ⟨3, "alice", none, some ("all"), 7, true, false⟩]

/-- Witness for C9 at concrete inputs: querying receiver bob on a
three-message store returns exactly the two matching messages in
descending-timestamp order. -/
theorem getMessages_spec_witness :
    List.Perm (getMessages dbW none (some ("bob")))
      (dbW.filter (specMatches none (some ("bob"))))
    ∧ List.Sorted tsGE (getMessages dbW none (some ("bob"))) :=
  getMessages_spec dbW none (some ("bob"))
    (fun _ h => Option.noConfusion h)
    (fun rv h => by cases h; decide)

/-- The POST /messages route (app.js lines 144-161): builds a document
from the request body with isDelivered true and isRead false and saves
it; the only validation applied is the mongoose schema itself, which
requires a non-empty sender string and nothing else, so an empty or
absent content is stored as given.  The timestamp takes the schema
default of the server clock. -/
def postMessage (now nid : Nat) (db : List StoredMessage)
    (sender receiver content : Option String)
    : Except String (List StoredMessage × StoredMessage) :=
  match sender with
  | none => Except.error ("ValidationError")
  | some s =>
    if s = "" then Except.error ("ValidationError")
    else
      let msg : StoredMessage :=
        { id := nid, sender := s, receiver := receiver, content := content,
          timestamp := now, isDelivered := true, isRead := false }
      Except.ok (db ++ [msg], msg)

/-- C10: the direct creation route does not apply the live-path
InvalidPayload check: a request with a non-empty sender and an empty or
absent content is persisted with isDelivered true and isRead false and
returned, while the live sendMessage path rejects the same sender and
content with no persistence. -/
theorem postMessage_no_validation (now nid : Nat) (db : List StoredMessage)
    (s : String) (receiver content : Option String) (hs : s ≠ "")
    (_hc : content = none ∨ content = some ("")) :
    postMessage now nid db (some s) receiver content
      = Except.ok (db ++ [⟨nid, s, receiver, content, now, true, false⟩],
          ⟨nid, s, receiver, content, now, true, false⟩)
    ∧ (sendMessage now nid [] db ⟨s, receiver, ""⟩).stored = none
    ∧ (sendMessage now nid [] db ⟨s, receiver, ""⟩).db = db := by
  refine ⟨?_, ?_, ?_⟩
  · simp [postMessage, hs]
  · simp [sendMessage]
  · simp [sendMessage]

/-- Witness for C10 at concrete inputs: an empty-content request from
alice is persisted and returned, while the live path rejects it. -/
theorem postMessage_no_validation_witness :
    postMessage 5 1 [] (some ("alice")) none (some (""))
      = Except.ok ([⟨1, "alice", none, some (""), 5, true, false⟩],
          ⟨1, "alice", none, some (""), 5, true, false⟩)
    ∧ (sendMessage 5 1 [] [] ⟨"alice", none, ""⟩).stored = none
    ∧ (sendMessage 5 1 [] [] ⟨"alice", none, ""⟩).db = [] :=
  postMessage_no_validation 5 1 [] "alice" none (some (""))
    (by decide) (Or.inr rfl)

end Chat
